import Mathlib

/-!
Shallow embedding of `svcbn/ssr-slack-todays-fortune-bot`.

Source files embedded:
  - `src/main.py` (the daily-fortune batch bot)
  - `src/.github/workflows/delete_bot_messages.py` (the message-deletion utility)

Conventions of the embedding:
  - Python strings are Lean `String`; `str.strip`/`lstrip`/`rstrip`/`upper` are
    re-implemented over `String.data` (`pyStrip` etc.) with Python's whitespace set.
  - Python `dict` field access is modelled with `Option` (`None` = missing key);
    Python dict lookup tables are association lists read with `List.lookup`.
  - A Slack list-item field value (`f.get("value")`) can be a string or a bool
    in the source, so it is a tagged union `FieldValue`.
  - Fallible code (`raise`) returns `Except String α`.
  - Network effects are explicit: the batch driver records every outbound call
    in a trace of `Event`s, and external services are a `World` of response
    functions; the Gemini / Slack HTTP clients take the server's responses as
    explicit data.
  - The regex `^\d{4}-\d{2}-\d{2}$` is modelled over ASCII digits
    (`Char.isDigit`); Python's Unicode-digit `\d` and the `$`-before-trailing-
    newline subtlety are not modelled, and no claim here depends on them.
  - `hashlib.sha256(raw).hexdigest()` in `make_daily_signature` is modelled by
    the raw preimage string itself: the claims about it use only determinism
    and (practical) injectivity, which the preimage has.
-/

namespace FortuneBot

/-! ## Python string helpers -/

/-- Python `str.strip` whitespace set: space, tab, newline, CR, VT, FF. -/
def isPySpace (c : Char) : Bool :=
  c == ' ' || c == '\t' || c == '\n' || c == '\r' || c == '\x0b' || c == '\x0c'

def pyLStripL (l : List Char) : List Char := l.dropWhile isPySpace

/-- Remove trailing Python whitespace (recursive rendering of `rstrip`). -/
def pyRStripL : List Char → List Char
  | [] => []
  | c :: cs =>
    match pyRStripL cs with
    | [] => if isPySpace c then [] else [c]
    | r => c :: r

def pyStripL (l : List Char) : List Char := pyRStripL (pyLStripL l)

/-- Python `s.strip()`. -/
def pyStrip (s : String) : String := ⟨pyStripL s.data⟩

/-- Python `s.lstrip()`. -/
def pyLStrip (s : String) : String := ⟨pyLStripL s.data⟩

/-- Python `s.rstrip()`. -/
def pyRStrip (s : String) : String := ⟨pyRStripL s.data⟩

/-- Python `s.startswith(pat)` on character lists. -/
def startsWithL : List Char → List Char → Bool
  | _, [] => true
  | [], _ :: _ => false
  | c :: cs, p :: ps => c == p && startsWithL cs ps

/-- Python `s.startswith(pat)`. -/
def startsWithS (s pat : String) : Bool := startsWithL s.data pat.data

/-- Python `s.upper()` (ASCII case map; stop reasons are ASCII). -/
def pyUpper (s : String) : String := ⟨s.data.map Char.toUpper⟩

/-- Python truthiness of an optional string (`None` and `""` are falsy). -/
def pyTruthy : Option String → Bool
  | none => false
  | some s => s != ""

/-- `f"(value={b})"` renders `None` as `"None"` and a string as itself. -/
def optRepr : Option String → String
  | none => "None"
  | some s => s

/-- `list(dict.fromkeys(l))`: deduplicate keeping the first occurrence, in order. -/
def uniqAux : List String → List String → List String
  | [], _ => []
  | x :: xs, seen => if seen.contains x then uniqAux xs seen else x :: uniqAux xs (x :: seen)

def uniqPreserve (l : List String) : List String := uniqAux l []

/-! ## Data model: Slack list items (`src/main.py`) -/

/-- `f.get("value")` in a list-item field: a string or a checkbox boolean. -/
inductive FieldValue where
  | vStr (s : String)
  | vBool (b : Bool)
deriving DecidableEq

/-- One entry of `item["fields"]`; absent dict keys are `none`. -/
structure Field where
  column_id : Option String := none
  key : Option String := none
  text : Option String := none
  value : Option FieldValue := none
  date : Option (List String) := none
  select : Option (List String) := none
  checkbox : Option Bool := none
  user : Option (List String) := none
deriving DecidableEq

/-- A Slack list item: `{"id": ..., "fields": [...]}`. -/
structure Item where
  id : Option String := none
  fields : List Field := []
deriving DecidableEq

/-- The configuration record assembled by `load_config` (the parts the
extraction/validation/driver code reads). -/
structure Config where
  channel_id : String
  admin_user_ids : List String
  gender_col : String
  time_col : String
  birthday_col : String
  private_col : String
  assignee_col : String
  gender_opt_to_mf : List (String × String)
  time_opt_to_code : List (String × String)

/-- `DEFAULT_GENDER_OPT_TO_MF`. -/
def DEFAULT_GENDER_OPT_TO_MF : List (String × String) :=
  [("OptQIPU5CQN", "m"), ("Opt0UQXFE0P", "f")]

/-- `DEFAULT_TIME_OPT_TO_CODE`. -/
def DEFAULT_TIME_OPT_TO_CODE : List (String × String) :=
  [("OptTK8JIX80", "0"), ("OptA92NTRBY", "1"), ("OptLKAW5WA1", "2"),
   ("OptV3N31RHW", "3"), ("Opt76B43XGY", "4"), ("Opt1Z92W5ML", "5"),
   ("Opt605DLXQ7", "6"), ("OptCZI2JJS4", "7"), ("OptTMERF71G", "8"),
   ("Opt8862IDXI", "9"), ("OptCP7RGTD8", "10"), ("OptFOHK1YTJ", "11"),
   ("OptUZH3DWEL", "12")]

/-- `TIME_CODE_TO_LABEL` (keys only matter for `build_prompt`). -/
def TIME_CODE_TO_LABEL : List (String × String) :=
  [("0", "子(자) 23:30 ~ 01:29"), ("1", "丑(축) 01:30 ~ 03:29"),
   ("2", "寅(인) 03:30 ~ 05:29"), ("3", "卯(묘) 05:30 ~ 07:29"),
   ("4", "辰(진) 07:30 ~ 09:29"), ("5", "巳(사) 09:30 ~ 11:29"),
   ("6", "午(오) 11:30 ~ 13:29"), ("7", "未(미) 13:30 ~ 15:29"),
   ("8", "申(신) 15:30 ~ 17:29"), ("9", "酉(유) 17:30 ~ 19:29"),
   ("10", "戌(술) 19:30 ~ 21:29"), ("11", "亥(해) 21:30 ~ 23:29"),
   ("12", "모름")]

/-! ## Field extraction (`src/main.py` lines 108–177) -/

/-- `field_by_column(fields, col_id)`. -/
def field_by_column (fields : List Field) (col_id : String) : Option Field :=
  fields.find? (fun f => f.column_id == some col_id)

/-- `extract_name(item)`. -/
def extract_name (item : Item) : String :=
  match item.fields.find? (fun f => f.key == some "name" && pyStrip (f.text.getD "") != "") with
  | some f => pyStrip (f.text.getD "")
  | none =>
    match item.fields.find? (fun f => pyStrip (f.text.getD "") != "") with
    | some f => pyStrip (f.text.getD "")
    | none => "(이름없음)"

/-- The `date` fallback inside `extract_birthday`. -/
def birthdayFromDate (f : Field) : Option String :=
  match f.date with
  | some (d :: _) => some (pyStrip d)
  | _ => none

/-- `extract_birthday(item, birthday_col)`. -/
def extract_birthday (item : Item) (birthday_col : String) : Option String :=
  match field_by_column item.fields birthday_col with
  | none => none
  | some f =>
    match f.value with
    | some (FieldValue.vStr v) =>
      if pyStrip v != "" then some (pyStrip v) else birthdayFromDate f
    | _ => birthdayFromDate f

/-- `extract_select_option(item, col_id)`. -/
def extract_select_option (item : Item) (col_id : String) : Option String :=
  match field_by_column item.fields col_id with
  | none => none
  | some f =>
    match f.select with
    | some (s :: _) => some s
    | _ =>
      match f.value with
      | some (FieldValue.vStr v) =>
        if startsWithS (pyStrip v) "Opt" then some (pyStrip v) else none
      | _ => none

/-- `extract_checkbox(item, col_id)`. -/
def extract_checkbox (item : Item) (col_id : String) : Option Bool :=
  match field_by_column item.fields col_id with
  | none => none
  | some f =>
    match f.value with
    | some (FieldValue.vBool b) => some b
    | _ =>
      match f.checkbox with
      | some b => some b
      | none => none

/-- `extract_user_ids(item, col_id)`. -/
def extract_user_ids (item : Item) (col_id : String) : List String :=
  match field_by_column item.fields col_id with
  | none => []
  | some f =>
    match f.user with
    | some u => u.filter (fun x => pyStrip x != "")
    | none =>
      match f.value with
      | some (FieldValue.vStr v) => if startsWithS v "U" then [v] else []
      | _ => []

/-- `DATE_RE = re.compile(r"^\d{4}-\d{2}-\d{2}$")`; `DATE_RE.match(s)` as a Bool. -/
def DATE_RE_match (s : String) : Bool :=
  match s.data with
  | [y1, y2, y3, y4, s1, m1, m2, s2, d1, d2] =>
    y1.isDigit && y2.isDigit && y3.isDigit && y4.isDigit && s1 == '-' &&
    m1.isDigit && m2.isDigit && s2 == '-' && d1.isDigit && d2.isDigit
  | _ => false

/-! ## Validator (`validate_item`, `src/main.py` lines 183–235) -/

/-- The `# name` check of `validate_item`. -/
def vNameErrs (item : Item) : List String :=
  let name := extract_name item
  if name == "" || name == "(이름없음)" then ["name: missing or empty"] else []

/-- The `# birthday` check of `validate_item`: non-falsy and matching `DATE_RE`. -/
def vBdayOk (cfg : Config) (item : Item) : Bool :=
  let b := extract_birthday item cfg.birthday_col
  pyTruthy b && DATE_RE_match (b.getD "")

def vBdayErrs (cfg : Config) (item : Item) : List String :=
  if vBdayOk cfg item then []
  else ["birthday: missing/invalid in col=" ++
        (cfg.birthday_col ++ (" (value=" ++ (optRepr (extract_birthday item cfg.birthday_col) ++ ")")))]

/-- The `# gender` check of `validate_item`. -/
def vGenderErrs (cfg : Config) (item : Item) : List String :=
  let gopt := extract_select_option item cfg.gender_col
  if !(pyTruthy gopt) then ["gender: missing select in col=" ++ cfg.gender_col]
  else
    match cfg.gender_opt_to_mf.lookup (gopt.getD "") with
    | some g =>
      if g == "m" || g == "f" then []
      else ["gender: unknown option_id=" ++ (gopt.getD "" ++ (" (col=" ++ (cfg.gender_col ++ ")")))]
    | none => ["gender: unknown option_id=" ++ (gopt.getD "" ++ (" (col=" ++ (cfg.gender_col ++ ")")))]

/-- The `# time` check of `validate_item`. -/
def vTimeErrs (cfg : Config) (item : Item) : List String :=
  let topt := extract_select_option item cfg.time_col
  if !(pyTruthy topt) then ["time: missing select in col=" ++ cfg.time_col]
  else
    match cfg.time_opt_to_code.lookup (topt.getD "") with
    | some _ => []
    | none => ["time: unknown option_id=" ++ (topt.getD "" ++ (" (col=" ++ (cfg.time_col ++ ")")))]

/-- The `# private checkbox` warning of `validate_item`. -/
def vPrivErrs (cfg : Config) (item : Item) : List String :=
  match extract_checkbox item cfg.private_col with
  | none => ["private: missing checkbox field in col=" ++ (cfg.private_col ++ " (treated as False)")]
  | some _ => []

/-- The `# assignee users` / dm-target check of `validate_item`. -/
def vDmErrs (cfg : Config) (item : Item) : List String :=
  let is_private := (extract_checkbox item cfg.private_col).getD false
  let assignees := extract_user_ids item cfg.assignee_col
  if is_private && (uniqPreserve (assignees ++ cfg.admin_user_ids)).isEmpty then
    ["dm_targets: private=true but no assignee in col=" ++ (cfg.assignee_col ++ " and ADMIN_USER_IDS empty")]
  else []

/-- `validate_item(cfg, item)` returning `(ok, errors)`.
The error strings keep the source's fixed heads (the `ok` computation keys on
the `"private:"` head) with the dynamic parts appended. -/
def validate_item (cfg : Config) (item : Item) : Bool × List String :=
  let errs := vNameErrs item ++ vBdayErrs cfg item ++ vGenderErrs cfg item ++
    vTimeErrs cfg item ++ vPrivErrs cfg item ++ vDmErrs cfg item
  let ok := (errs.filter (fun e => !(startsWithS e "private:"))).length == 0
  (ok, errs)

/-! ## Record extraction (`build_rec_from_item`, `src/main.py` lines 504–543) -/

/-- The normalized recipient record returned by `build_rec_from_item`. -/
structure Rec where
  item_id : Option String
  name : String
  birthday : String
  gender : String
  time_code : String
  is_private : Bool
  dm_targets : List String
deriving DecidableEq

/-- `build_rec_from_item(cfg, item)`. -/
def build_rec_from_item (cfg : Config) (item : Item) : Except String Rec :=
  let name := extract_name item
  match extract_birthday item cfg.birthday_col with
  | none => .error "birthday missing"
  | some birthday =>
    if birthday == "" then .error "birthday missing"
    else
      match extract_select_option item cfg.gender_col with
      | none => .error "gender select missing"
      | some gender_opt =>
        if gender_opt == "" then .error "gender select missing"
        else
          match cfg.gender_opt_to_mf.lookup gender_opt with
          | none => .error ("unknown gender option: " ++ gender_opt)
          | some gender =>
            if !(gender == "m" || gender == "f") then
              .error ("unknown gender option: " ++ gender_opt)
            else
              match extract_select_option item cfg.time_col with
              | none => .error "time select missing"
              | some time_opt =>
                if time_opt == "" then .error "time select missing"
                else
                  match cfg.time_opt_to_code.lookup time_opt with
                  | none => .error ("unknown time option: " ++ time_opt)
                  | some time_code =>
                    let is_private := (extract_checkbox item cfg.private_col).getD false
                    let assignees := extract_user_ids item cfg.assignee_col
                    let dm_targets := uniqPreserve (assignees ++ cfg.admin_user_ids)
                    .ok { item_id := item.id, name := name, birthday := birthday,
                          gender := gender, time_code := time_code,
                          is_private := is_private, dm_targets := dm_targets }

/-! ## Prompt builder and daily signature (`src/main.py` lines 269–377) -/

/-- `build_prompt(r)` with `r["today"]` passed separately.  The long fixed
Korean scaffolding of the prompt is abbreviated to its opening line — no claim
depends on the fixed text — while every dynamic part (name, birthday, the
gender and birth-time renderings, the date echo) is kept exactly. -/
def build_prompt (r : Rec) (today : String) : String :=
  let gender_ko := if r.gender == "m" then "남성" else "여성"
  let time_ko := (TIME_CODE_TO_LABEL.lookup r.time_code).getD "모름"
  "너는 한국어로 작성되는 고급 일일 운세 칼럼의 전문 작가다.\n" ++
  "[입력 정보]\n" ++
  "- 이름: " ++ r.name ++ "\n" ++
  "- 생년월일(양력): " ++ r.birthday ++ "\n" ++
  "- 성별: " ++ gender_ko ++ "\n" ++
  "- 출생시간: " ++ time_ko ++ "\n" ++
  "- 오늘 날짜: " ++ today

/-- `make_daily_signature(item_id, date_str)`: the SHA-256 hex digest of
`f"{item_id}:{date_str}"`, modelled by the preimage itself (deterministic,
injective up to the separator, exactly like the digest in practice). -/
def make_daily_signature (item_id : String) (date_str : String) : String :=
  item_id ++ ":" ++ date_str

/-! ## The driver's effect model (`run`, `src/main.py` lines 549–610) -/

/-- One outbound network call of the delivery path. -/
inductive Event where
  | genCall (prompt : String)
  | openDm (uid : String)
  | post (channel : String) (text : String)
deriving DecidableEq

/-- The external services, as deterministic response functions:
`gen` is the Gemini text for a prompt, `openDm` is `conversations.open`,
`post` is `chat.postMessage`. -/
structure World where
  gen : String → Except String String
  openDm : String → Except String String
  post : String → String → Except String Unit

/-- The DM channel id `slack_open_dm` yields for a user (junk when it fails). -/
def dmChan (w : World) (uid : String) : String :=
  match w.openDm uid with
  | .ok ch => ch
  | .error _ => ""

/-- The `for uid in r["dm_targets"]` delivery loop: open a DM then post, in list
order, stopping at the first failure.  Returns the calls actually made and
whether the loop completed. -/
def deliverDMs (w : World) (text : String) : List String → List Event × Except String Unit
  | [] => ([], .ok ())
  | uid :: rest =>
    match w.openDm uid with
    | .error e => ([Event.openDm uid], .error e)
    | .ok ch =>
      match w.post ch text with
      | .error e => ([Event.openDm uid, Event.post ch text], .error e)
      | .ok _ =>
        let (evs, res) := deliverDMs w text rest
        (Event.openDm uid :: Event.post ch text :: evs, res)

/-- `notify_admins_of_error`: best-effort DM to each admin, every failure
swallowed.  Returns the calls made. -/
def notifyAdmins (w : World) (msg : String) : List String → List Event
  | [] => []
  | uid :: rest =>
    match w.openDm uid with
    | .error _ => Event.openDm uid :: notifyAdmins w msg rest
    | .ok ch => Event.openDm uid :: Event.post ch msg :: notifyAdmins w msg rest

/-- The admin-notification text (`notify_admins_of_error`), abbreviated. -/
def adminErrMsg (item_id name err : String) : String :=
  "운세봇 처리 오류: " ++ name ++ " " ++ item_id ++ " " ++ err

/-- Whether the `try` block of one loop iteration of `run` completes without
raising: extraction, generation, and every delivery must succeed. -/
def itemAttemptOk (cfg : Config) (w : World) (todayLabel : String) (item : Item) : Bool :=
  match build_rec_from_item cfg item with
  | .error _ => false
  | .ok r =>
    match w.gen (build_prompt r todayLabel) with
    | .error _ => false
    | .ok text =>
      if r.is_private then
        match (deliverDMs w text r.dm_targets).2 with
        | .ok _ => true
        | .error _ => false
      else
        match w.post cfg.channel_id text with
        | .ok _ => true
        | .error _ => false

/-- One iteration of the `for it in items` loop of `run`, acting on the state
`(sent_signatures, trace of outbound calls)`. -/
def processItem (cfg : Config) (w : World) (todayKey todayLabel : String)
    (st : List String × List Event) (item : Item) : List String × List Event :=
  let (sent, events) := st
  let item_id := item.id.getD ""
  let name_for_log := extract_name item
  let sig := make_daily_signature item_id todayKey
  if sent.contains sig then (sent, events)
  else
    match build_rec_from_item cfg item with
    | .error e =>
      (sent, events ++ notifyAdmins w (adminErrMsg item_id name_for_log e) cfg.admin_user_ids)
    | .ok r =>
      let prompt := build_prompt r todayLabel
      match w.gen prompt with
      | .error e =>
        (sent, events ++ [Event.genCall prompt] ++
          notifyAdmins w (adminErrMsg item_id name_for_log e) cfg.admin_user_ids)
      | .ok text =>
        if r.is_private then
          let (evs, res) := deliverDMs w text r.dm_targets
          match res with
          | .ok _ => (sig :: sent, events ++ [Event.genCall prompt] ++ evs)
          | .error e =>
            (sent, events ++ [Event.genCall prompt] ++ evs ++
              notifyAdmins w (adminErrMsg item_id name_for_log e) cfg.admin_user_ids)
        else
          match w.post cfg.channel_id text with
          | .ok _ =>
            (sig :: sent, events ++ [Event.genCall prompt, Event.post cfg.channel_id text])
          | .error e =>
            (sent, events ++ [Event.genCall prompt, Event.post cfg.channel_id text] ++
              notifyAdmins w (adminErrMsg item_id name_for_log e) cfg.admin_user_ids)

/-- The whole `for it in items` loop. -/
def runItems (cfg : Config) (w : World) (todayKey todayLabel : String)
    (st : List String × List Event) (items : List Item) : List String × List Event :=
  items.foldl (processItem cfg w todayKey todayLabel) st

/-- Number of `chat.postMessage` calls to a given channel in a trace. -/
def countPosts (channel : String) (evs : List Event) : Nat :=
  (evs.filter (fun e => match e with | Event.post c _ => c == channel | _ => false)).length

/-- Number of `conversations.open` calls in a trace. -/
def countOpenDm (evs : List Event) : Nat :=
  (evs.filter (fun e => match e with | Event.openDm _ => true | _ => false)).length

/-- Number of Gemini generation calls in a trace. -/
def countGen (evs : List Event) : Nat :=
  (evs.filter (fun e => match e with | Event.genCall _ => true | _ => false)).length

/-! ## Gemini client (`gemini_generate_text`, `src/main.py` lines 383–434) -/

/-- One element of `candidates[0].content.parts`. -/
structure GPart where
  text : Option String := none
deriving DecidableEq

/-- One element of `candidates`. -/
structure GCand where
  finishReason : Option String := none
  parts : List GPart := []
deriving DecidableEq

/-- A parsed `generateContent` response body (HTTP-level errors out of scope:
the claims under proof concern the candidate/finish-reason logic). -/
structure GResp where
  candidates : List GCand := []
deriving DecidableEq

/-- The part texts kept by `extract_text`: string parts with non-blank text,
each stripped.  (The source strips each kept part and joins with newlines.) -/
def keptPartTexts (parts : List GPart) : List String :=
  (parts.filterMap (fun p => p.text)).filterMap
    (fun t => if pyStrip t != "" then some (pyStrip t) else none)

/-- `"\n".join(texts)`. -/
def joinNL : List String → String
  | [] => ""
  | [t] => t
  | t :: rest => t ++ "\n" ++ joinNL rest

/-- `extract_text(data)`: `(text, finishReason)`, raising when there is no
candidate. -/
def gemini_extract_text (data : GResp) : Except String (String × String) :=
  match data.candidates with
  | [] => .error "Gemini returned no candidates"
  | cand0 :: _ =>
    let finish := cand0.finishReason.getD ""
    let text := pyStrip (joinNL (keptPartTexts cand0.parts))
    .ok (text, finish)

/-- The continuation prompt built around the truncated text (fixed scaffolding
abbreviated; the truncated text is embedded exactly). -/
def contPrompt (text1 : String) : String :=
  "아래 글은 길이 제한으로 중간에서 끊겼다. 이어서 작성해라.\n=== 끊긴 글 ===\n" ++
  text1 ++ "\n=== 여기서부터 이어쓰기 ==="

/-- `gemini_generate_text(api_key, model, prompt)` given the server's response
to the first call and (if one is made) to the continuation call.  Returns the
result together with the number of generation calls issued. -/
def gemini_generate_text (resp1 resp2 : GResp) : Except String String × Nat :=
  match gemini_extract_text resp1 with
  | .error e => (.error e, 1)
  | .ok (text1, finish1) =>
    if text1 == "" then (.error "Gemini returned empty text (first call)", 1)
    else if pyUpper finish1 == "MAX_TOKENS" then
      match gemini_extract_text resp2 with
      | .error e => (.error e, 2)
      | .ok (text2, _) =>
        if text2 != "" then
          (.ok (pyStrip (pyRStrip text1 ++ "\n" ++ pyLStrip text2)), 2)
        else (.ok text1, 2)
    else (.ok text1, 1)

/-! ## Slack API clients

`slack_api` in `src/main.py` (lines 79–90) performs a single request and
raises whenever the body's `ok` is falsy — it has no rate-limit handling.
`slack_api` in `src/.github/workflows/delete_bot_messages.py` (lines 24–48)
retries forever on HTTP 429 or an in-body `"ratelimited"` error, sleeping
`Retry-After + 1` seconds each time, and never raises. -/

/-- A parsed Slack response body: the `ok` flag, the `error` field, and the
payload left abstract as an identifier for the rest of the body. -/
structure SlackBody where
  ok : Bool
  error : Option String := none
  payload : String := ""
deriving DecidableEq

/-- One HTTP exchange as the deletion utility sees it: status code, optional
numeric `Retry-After` header, body. -/
structure HttpResp where
  status : Nat := 200
  retryAfter : Option Nat := none
  body : SlackBody
deriving DecidableEq

/-- `slack_api(method, token, payload)` of `src/main.py`: one request; raises
unless `data.get("ok")` is truthy. -/
def slack_api_main (method : String) (resp : SlackBody) : Except String SlackBody :=
  if resp.ok then .ok resp else .error (method ++ " failed")

/-- Whether the deletion utility's `slack_api` treats a response as a
rate-limit signal (HTTP 429, or `ok=false` body with `error == "ratelimited"`). -/
def isRateLimited (r : HttpResp) : Bool :=
  r.status == 429 || r.body.error == some "ratelimited"

/-- The `retry_after + 1` seconds slept for a rate-limited response
(`int(resp.headers.get("Retry-After", "2"))` modelled as a numeric header). -/
def rateLimitSleep (r : HttpResp) : Nat := r.retryAfter.getD 2 + 1

/-- `slack_api` of `delete_bot_messages.py` over the successive responses the
server returns to the retried identical request: skips every rate-limited
response (recording its sleep), returns the first other body.  `none` means
every provided response was rate-limited — the real loop would still be
retrying. -/
def slack_api_del : List HttpResp → Option (SlackBody × List Nat)
  | [] => none
  | r :: rest =>
    if isRateLimited r then
      match slack_api_del rest with
      | none => none
      | some (b, sleeps) => some (b, rateLimitSleep r :: sleeps)
    else some (r.body, [])

/-! ## Paginated fetch (`fetch_all_list_items`, `src/main.py` lines 492–501) -/

/-- One `slackLists.items.list` response: `items` and
`response_metadata.next_cursor` (both already defaulted as in the source). -/
structure Page where
  items : List Item := []
  next_cursor : String := ""
deriving DecidableEq

/-- `fetch_all_list_items(token, list_id)` over the successive pages the server
returns: accumulates items, follows the cursor, stops at the first empty
cursor.  Returns the items and the number of fetches; `none` means the server
list ran out while a non-empty cursor was still pending. -/
def fetch_all_list_items : List Page → Option (List Item × Nat)
  | [] => none
  | p :: rest =>
    if p.next_cursor == "" then some (p.items, 1)
    else
      match fetch_all_list_items rest with
      | none => none
      | some (its, n) => some (p.items ++ its, n + 1)

/-! ## Environment helper (`env`, `src/main.py` lines 64–76) -/

/-- `env(name, default, required)` of `src/main.py`, with `os.getenv(name)`
passed in as `v`. -/
def env (v : Option String) (default : Option String) (required : Bool) : Except String String :=
  let v1 := match v with | none => default | some s => some s
  let v2 :=
    match v1 with
    | some s => if pyStrip s == "" then default else some s
    | none => none
  if required && (match v2 with | none => true | some s => pyStrip s == "") then
    .error "Missing required env var"
  else
    .ok (match v2 with | some s => pyStrip s | none => "")

/-! ## Deletion utility (`src/.github/workflows/delete_bot_messages.py`) -/

/-- A channel/thread message as the deletion utility reads it. -/
structure DMsg where
  ts : String
  user : Option String := none
  bot_id : Option String := none
  subtype : Option String := none
  reply_count : Nat := 0
deriving DecidableEq

/-- `is_bot_authored(msg, bot_user_id, bot_id)`. -/
def is_bot_authored (m : DMsg) (bot_user_id : Option String) (bot_id : Option String) : Bool :=
  m.user == bot_user_id ||
  (pyTruthy bot_id && m.bot_id == bot_id) ||
  (m.subtype == some "bot_message" && m.user == bot_user_id)

/-- `delete_message(token, channel_id, ts, dry_run)`: the `chat.delete` calls
made (none under dry run) and the returned flag.  `w ts` is whether the API
would accept deleting `ts`. -/
def delete_message (w : String → Bool) (ts : String) (dry_run : Bool) : List String × Bool :=
  if dry_run then ([], true) else ([ts], w ts)

/-- A parent channel message paired with the pages `conversations.replies`
would return for its thread. -/
structure Parent where
  msg : DMsg
  replyPages : List (List DMsg) := []
deriving DecidableEq

/-- Scan state of `main`: deletions counted and `chat.delete` calls made. -/
structure ScanSt where
  deleted : Nat
  calls : List String
deriving DecidableEq

/-- The fixed inputs of the deletion scan: the deletion API (`w ts` = whether
`chat.delete` would succeed on `ts`), the `DRY_RUN` flag, the `MAX_DELETE`
cap, and the bot identity from `auth.test`. -/
structure DelCtx where
  w : String → Bool
  dry : Bool
  maxDelete : Nat
  botUser : Option String := none
  botId : Option String := none

/-- The `for r in replies` body over one replies page; the `Bool` is the early
`return` taken when `deleted >= max_delete` is hit before a deletion. -/
def scanReplyPage (ctx : DelCtx) (parentTs : String) :
    List DMsg → ScanSt → ScanSt × Bool
  | [], st => (st, false)
  | r :: rest, st =>
    if r.ts == parentTs then scanReplyPage ctx parentTs rest st
    else if !(is_bot_authored r ctx.botUser ctx.botId) then
      scanReplyPage ctx parentTs rest st
    else if ctx.maxDelete ≤ st.deleted then (st, true)
    else
      let (c, ok) := delete_message ctx.w r.ts ctx.dry
      let st1 : ScanSt :=
        { deleted := if ok then st.deleted + 1 else st.deleted, calls := st.calls ++ c }
      scanReplyPage ctx parentTs rest st1

/-- The `while True` replies-pagination loop for one thread. -/
def scanReplyPages (ctx : DelCtx) (parentTs : String) :
    List (List DMsg) → ScanSt → ScanSt × Bool
  | [], st => (st, false)
  | pg :: rest, st =>
    let (st1, stop) := scanReplyPage ctx parentTs pg st
    if stop then (st1, true) else scanReplyPages ctx parentTs rest st1

/-- The `for m in msgs` body over one channel-history page: skip non-bot
messages; for a bot message, delete its thread replies first (only when
`reply_count > 0`), then the parent, each deletion guarded by the cap. -/
def scanPageMsgs (ctx : DelCtx) : List Parent → ScanSt → ScanSt × Bool
  | [], st => (st, false)
  | p :: rest, st =>
    if !(is_bot_authored p.msg ctx.botUser ctx.botId) then scanPageMsgs ctx rest st
    else
      let (st1, stop1) :=
        if 0 < p.msg.reply_count then scanReplyPages ctx p.msg.ts p.replyPages st
        else (st, false)
      if stop1 then (st1, true)
      else if ctx.maxDelete ≤ st1.deleted then (st1, true)
      else
        let (c, ok) := delete_message ctx.w p.msg.ts ctx.dry
        let st2 : ScanSt :=
          { deleted := if ok then st1.deleted + 1 else st1.deleted, calls := st1.calls ++ c }
        scanPageMsgs ctx rest st2

/-- The outer `while True` history-pagination loop of `main`, over the pages
`conversations.history` returns. -/
def scanPages (ctx : DelCtx) : List (List Parent) → ScanSt → ScanSt × Bool
  | [], st => (st, false)
  | pg :: rest, st =>
    let (st1, stop) := scanPageMsgs ctx pg st
    if stop then (st1, true) else scanPages ctx rest st1

/-- The whole deletion scan of `main`, from the initial `deleted = 0`. -/
def deleteScan (ctx : DelCtx) (pages : List (List Parent)) : ScanSt × Bool :=
  scanPages ctx pages { deleted := 0, calls := [] }

/-- Qualifying deletions in one replies page: bot-authored replies other than
the parent. -/
def qualRepliesPage (ctx : DelCtx) (parentTs : String) (pg : List DMsg) : Nat :=
  (pg.filter (fun r => r.ts != parentTs && is_bot_authored r ctx.botUser ctx.botId)).length

/-- Qualifying deletions for one parent message: its qualifying thread replies
(when fetched) plus the parent itself, or nothing for a non-bot message. -/
def qualParent (ctx : DelCtx) (p : Parent) : Nat :=
  if !(is_bot_authored p.msg ctx.botUser ctx.botId) then 0
  else
    (if 0 < p.msg.reply_count then
      (p.replyPages.map (qualRepliesPage ctx p.msg.ts)).sum
     else 0) + 1

/-- Total deletions the scan would attempt with no cap. -/
def qualTotal (ctx : DelCtx) (pages : List (List Parent)) : Nat :=
  (pages.map (fun pg => (pg.map (qualParent ctx)).sum)).sum

/-! ## Derived notions used by the theorems -/

/-- The calls a fully successful private delivery makes: per dm target, in list
order, one `conversations.open` then one `chat.postMessage` to that DM channel. -/
def dmTrace (w : World) (text : String) (targets : List String) : List Event :=
  targets.flatMap (fun uid => [Event.openDm uid, Event.post (dmChan w uid) text])

/-- An optional default with no usable (non-blank) value. -/
def blankOpt : Option String → Bool
  | none => true
  | some s => pyStrip s == ""

/-! ## Concrete fixtures (used by witnesses and counterexamples) -/

/-- A configuration as `load_config` builds it with no option overrides and no
admins. -/
def cfg0 : Config :=
  { channel_id := "C0SHARED"
    admin_user_ids := []
    gender_col := "Col0A8FH3BN7L"
    time_col := "Col0A8K6V4HDJ"
    birthday_col := "Col0A8JMV8N5A"
    private_col := "Col0A8BMFER7F"
    assignee_col := "Col0A8G4DUAMQ"
    gender_opt_to_mf := DEFAULT_GENDER_OPT_TO_MF
    time_opt_to_code := DEFAULT_TIME_OPT_TO_CODE }

def nameFieldFx : Field := { key := some "name", text := some "홍길동" }

def bdayFieldFx : Field :=
  { column_id := some "Col0A8JMV8N5A", value := some (FieldValue.vStr "1990-05-14") }

def genderFieldFx : Field := { column_id := some "Col0A8FH3BN7L", select := some ["OptQIPU5CQN"] }

def timeFieldFx : Field := { column_id := some "Col0A8K6V4HDJ", select := some ["OptTK8JIX80"] }

def privTrueFx : Field := { column_id := some "Col0A8BMFER7F", value := some (FieldValue.vBool true) }

def privFalseFx : Field := { column_id := some "Col0A8BMFER7F", value := some (FieldValue.vBool false) }

/-- A fully valid, non-private item. -/
def itemOkFx : Item :=
  { id := some "Rec1", fields := [nameFieldFx, bdayFieldFx, genderFieldFx, timeFieldFx, privFalseFx] }

/-- Private item with no assignee field (and `cfg0` has no admins). -/
def itemPrivNoTargetsFx : Item :=
  { id := some "Rec3", fields := [nameFieldFx, bdayFieldFx, genderFieldFx, timeFieldFx, privTrueFx] }

/-- Valid gender/time, but the birthday text is not a date. -/
def itemBadBdayFx : Item :=
  { id := some "Rec5",
    fields := [nameFieldFx,
               { column_id := some "Col0A8JMV8N5A", value := some (FieldValue.vStr "hello") },
               genderFieldFx, timeFieldFx, privFalseFx] }

/-- A world in which every external call succeeds. -/
def wOkFx : World :=
  { gen := fun _ => .ok "오늘의 운세"
    openDm := fun u => .ok ("D" ++ u)
    post := fun _ _ => .ok () }

/-- First Gemini response: truncated (`MAX_TOKENS`) with non-empty text. -/
def gRespTruncFx : GResp :=
  { candidates := [{ finishReason := some "MAX_TOKENS", parts := [{ text := some "첫 부분" }] }] }

/-- A continuation response with a candidate and non-empty text. -/
def gRespContFx : GResp :=
  { candidates := [{ finishReason := some "STOP", parts := [{ text := some "이어지는 부분" }] }] }

/-- A continuation response with no candidates at all. -/
def gRespNoCandFx : GResp := { candidates := [] }

/-- Deletion-utility fixtures: a bot-authored message and a scan context. -/
def botMsgFx (ts : String) : DMsg := { ts := ts, user := some "UBOT" }

def delCtxFx : DelCtx :=
  { w := fun _ => true, dry := true, maxDelete := 2, botUser := some "UBOT" }

def delPagesFx : List (List Parent) :=
  [[{ msg := botMsgFx "1" }, { msg := { ts := "2", user := some "UHUMAN" } }, { msg := botMsgFx "3" }],
   [{ msg := botMsgFx "4" }]]

def pageAFx : Page := { items := [itemOkFx], next_cursor := "cursorA" }

def pageBFx : Page := { items := [itemPrivNoTargetsFx], next_cursor := "" }

/-- The record `build_rec_from_item cfg0 itemOkFx` produces. -/
def recOkFx : Rec :=
  { item_id := some "Rec1", name := "홍길동", birthday := "1990-05-14",
    gender := "m", time_code := "0", is_private := false, dm_targets := [] }

/-- An HTTP 429 rate-limited response with a Retry-After of 5 seconds. -/
def rlRespFx : HttpResp :=
  { status := 429, retryAfter := some 5, body := { ok := false, error := some "ratelimited" } }

/-- A normal successful response. -/
def okRespFx : HttpResp := { status := 200, body := { ok := true, payload := "done" } }


/-! ## Theorems -/

theorem pyRStripL_nil : pyRStripL [] = [] := rfl

theorem pyRStripL_cons (c : Char) (cs : List Char) :
    pyRStripL (c :: cs) = match pyRStripL cs with
      | [] => if isPySpace c then [] else [c]
      | r => c :: r := rfl

theorem pyLStripL_idem (l : List Char) : pyLStripL (pyLStripL l) = pyLStripL l := by
  induction l with
  | nil => rfl
  | cons c cs ih =>
    simp only [pyLStripL, List.dropWhile_cons]
    by_cases h : isPySpace c
    · simpa [h, pyLStripL] using ih
    · simp [h, List.dropWhile_cons]

theorem pyRStripL_idem (l : List Char) : pyRStripL (pyRStripL l) = pyRStripL l := by
  induction l with
  | nil => rfl
  | cons c cs ih =>
    cases h : pyRStripL cs with
    | nil =>
      by_cases hc : isPySpace c
      · simp [pyRStripL_cons, h, hc, pyRStripL_nil]
      · simp [pyRStripL_cons, h, hc, pyRStripL_nil]
    | cons x xs =>
      rw [h] at ih
      rw [pyRStripL_cons, h]
      simp only []
      rw [pyRStripL_cons, ih]

theorem head_not_space_of_lstrip_fixed (c : Char) (cs : List Char)
    (h : pyLStripL (c :: cs) = c :: cs) : isPySpace c = false := by
  cases hc : isPySpace c with
  | false => rfl
  | true =>
    exfalso
    simp only [pyLStripL, List.dropWhile_cons, hc, if_true] at h
    have hle : (List.dropWhile isPySpace cs).length ≤ cs.length :=
      (List.dropWhile_sublist (p := isPySpace) (l := cs)).length_le
    rw [h] at hle
    simp at hle

theorem lstrip_fixed_of_rstrip (u : List Char) (hu : pyLStripL u = u) :
    pyLStripL (pyRStripL u) = pyRStripL u := by
  cases u with
  | nil => rfl
  | cons c cs =>
    have hc := head_not_space_of_lstrip_fixed c cs hu
    cases h : pyRStripL cs with
    | nil =>
      simp [pyRStripL_cons, h, hc, pyLStripL, List.dropWhile_cons]
    | cons x xs =>
      simp [pyRStripL_cons, h, hc, pyLStripL, List.dropWhile_cons]

theorem pyStripL_def (l : List Char) : pyStripL l = pyRStripL (pyLStripL l) := rfl

theorem pyRStripL_strip_fixed (l : List Char) : pyRStripL (pyStripL l) = pyStripL l :=
  pyRStripL_idem _

theorem pyLStripL_strip_fixed (l : List Char) : pyLStripL (pyStripL l) = pyStripL l := by
  rw [pyStripL_def]
  exact lstrip_fixed_of_rstrip _ (pyLStripL_idem l)

theorem pyStripL_idem (l : List Char) : pyStripL (pyStripL l) = pyStripL l := by
  rw [pyStripL_def (pyStripL l), pyLStripL_strip_fixed, pyRStripL_strip_fixed]

theorem pyRStripL_append (xs ys : List Char) :
    pyRStripL (xs ++ ys) = if pyRStripL ys = [] then pyRStripL xs else xs ++ pyRStripL ys := by
  induction xs with
  | nil =>
    by_cases h : pyRStripL ys = [] <;>
      simp [h, show pyRStripL ([] : List Char) = [] from rfl]
  | cons c cs ih =>
    by_cases h : pyRStripL ys = []
    · simp only [h, if_true] at ih ⊢
      simp only [List.cons_append]
      cases h2 : pyRStripL cs with
      | nil => rw [pyRStripL_cons, ih, h2, pyRStripL_cons, h2]
      | cons x xs2 => rw [pyRStripL_cons, ih, h2, pyRStripL_cons, h2]
    · simp only [h, if_false] at ih ⊢
      simp only [List.cons_append]
      have hne : cs ++ pyRStripL ys ≠ [] := by
        intro hh
        exact h (List.append_eq_nil.mp hh).2
      cases h3 : cs ++ pyRStripL ys with
      | nil => exact absurd h3 hne
      | cons z zs =>
        rw [pyRStripL_cons, ih, h3]

theorem pyStripL_append_nl (a b : List Char)
    (ha : pyStripL a = a) (hb : pyStripL b = b) (na : a ≠ []) (nb : b ≠ []) :
    pyStripL (a ++ '\n' :: b) = a ++ '\n' :: b := by
  have hal : pyLStripL a = a := by
    conv_lhs => rw [← ha, pyLStripL_strip_fixed, ha]
  have hbr : pyRStripL b = b := by
    conv_lhs => rw [← hb, pyRStripL_strip_fixed, hb]
  obtain ⟨c, cs, rfl⟩ : ∃ c cs, a = c :: cs := by
    cases a with
    | nil => exact absurd rfl na
    | cons c cs => exact ⟨c, cs, rfl⟩
  have hc := head_not_space_of_lstrip_fixed c cs hal
  have hys : pyRStripL ('\n' :: b) = '\n' :: b := by
    rw [pyRStripL_cons, hbr]
    cases b with
    | nil => exact absurd rfl nb
    | cons x xs => rfl
  rw [pyStripL_def]
  have hl : pyLStripL ((c :: cs) ++ '\n' :: b) = (c :: cs) ++ '\n' :: b := by
    simp [pyLStripL, List.dropWhile_cons, hc]
  rw [hl]
  rw [show ((c :: cs) ++ '\n' :: b) = ((c :: cs) ++ ('\n' :: b)) from rfl]
  rw [pyRStripL_append, hys]
  simp



theorem pyStrip_data (s : String) : (pyStrip s).data = pyStripL s.data := rfl

theorem pyStrip_idem (s : String) : pyStrip (pyStrip s) = pyStrip s :=
  String.ext (pyStripL_idem s.data)

theorem pyRStrip_of_strip_fixed (s : String) (h : pyStrip s = s) : pyRStrip s = s := by
  conv_lhs => rw [← h]
  conv_rhs => rw [← h]
  exact String.ext (pyRStripL_strip_fixed s.data)

theorem pyLStrip_of_strip_fixed (s : String) (h : pyStrip s = s) : pyLStrip s = s := by
  conv_lhs => rw [← h]
  conv_rhs => rw [← h]
  exact String.ext (pyLStripL_strip_fixed s.data)

theorem data_ne_nil_of_ne_empty (s : String) (h : s ≠ "") : s.data ≠ [] := by
  intro hd
  exact h (String.ext (by simpa using hd))

theorem pyStrip_append_nl (a b : String)
    (ha : pyStrip a = a) (hb : pyStrip b = b) (na : a ≠ "") (nb : b ≠ "") :
    pyStrip (a ++ "\n" ++ b) = a ++ "\n" ++ b := by
  apply String.ext
  have hdata : (a ++ "\n" ++ b).data = a.data ++ '\n' :: b.data := by
    rw [String.data_append, String.data_append]
    simp [show ("\n" : String).data = ['\n'] from rfl]
  rw [pyStrip_data, hdata]
  exact pyStripL_append_nl a.data b.data (congrArg String.data ha) (congrArg String.data hb)
    (data_ne_nil_of_ne_empty a na) (data_ne_nil_of_ne_empty b nb)

theorem gemini_extract_strip (resp : GResp) (t f : String)
    (h : gemini_extract_text resp = .ok (t, f)) : pyStrip t = t := by
  unfold gemini_extract_text at h
  cases hc : resp.candidates with
  | nil => rw [hc] at h; exact absurd h (by simp)
  | cons c0 rest =>
    rw [hc] at h
    simp only [Except.ok.injEq, Prod.mk.injEq] at h
    rw [← h.1]
    exact pyStrip_idem _

/-- C4: `gemini_generate_text` makes at most two generation calls; it raises when
the first response has no candidates or no non-empty text; it issues exactly one
continuation call iff the first finish reason upper-cases to `MAX_TOKENS`; a
continuation with non-empty text yields first text, one line break, continuation
text; a continuation whose candidates carry no non-empty text yields the first
text as-is. -/
theorem gemini_generate_text_spec (resp1 resp2 : GResp) :
    (gemini_generate_text resp1 resp2).2 ≤ 2 ∧
    (resp1.candidates = [] →
      gemini_generate_text resp1 resp2 = (.error "Gemini returned no candidates", 1)) ∧
    (∀ t1 f1, gemini_extract_text resp1 = .ok (t1, f1) →
      (t1 = "" → gemini_generate_text resp1 resp2 =
        (.error "Gemini returned empty text (first call)", 1)) ∧
      (t1 ≠ "" →
        ((gemini_generate_text resp1 resp2).2 = 2 ↔ pyUpper f1 = "MAX_TOKENS") ∧
        (pyUpper f1 ≠ "MAX_TOKENS" → gemini_generate_text resp1 resp2 = (.ok t1, 1)) ∧
        (pyUpper f1 = "MAX_TOKENS" →
          ∀ t2 f2, gemini_extract_text resp2 = .ok (t2, f2) →
            (t2 ≠ "" → gemini_generate_text resp1 resp2 = (.ok (t1 ++ "\n" ++ t2), 2)) ∧
            (t2 = "" → gemini_generate_text resp1 resp2 = (.ok t1, 2))))) := by
  refine ⟨?_, ?_, ?_⟩
  · unfold gemini_generate_text
    cases h1 : gemini_extract_text resp1 with
    | error e => simp
    | ok p =>
      obtain ⟨t1, f1⟩ := p
      simp only []
      by_cases ht : t1 == ""
      · simp [ht]
      · simp only [Bool.not_eq_true] at ht
        simp only [ht, Bool.false_eq_true, if_false]
        by_cases hf : pyUpper f1 == "MAX_TOKENS"
        · simp only [hf, if_true]
          cases h2 : gemini_extract_text resp2 with
          | error e => simp
          | ok q =>
            obtain ⟨t2, f2⟩ := q
            by_cases ht2 : t2 != ""
            · simp [ht2]
            · simp [ht2]
        · simp [hf]
  · intro hc
    unfold gemini_generate_text gemini_extract_text
    rw [hc]
  · intro t1 f1 h1
    have ht1s := gemini_extract_strip resp1 t1 f1 h1
    constructor
    · intro ht
      unfold gemini_generate_text
      rw [h1]
      simp [ht]
    · intro ht
      have htb : (t1 == "") = false := by
        cases h : t1 == ""
        · rfl
        · exact absurd (by simpa using h) ht
      refine ⟨?_, ?_, ?_⟩
      · unfold gemini_generate_text
        rw [h1]
        simp only [htb, Bool.false_eq_true, if_false]
        by_cases hf : pyUpper f1 == "MAX_TOKENS"
        · simp only [hf, if_true]
          constructor
          · intro _
            simpa using hf
          · intro _
            cases h2 : gemini_extract_text resp2 with
            | error e => simp
            | ok q =>
              obtain ⟨t2, f2⟩ := q
              by_cases ht2 : t2 != "" <;> simp [ht2]
        · simp only [hf, Bool.false_eq_true, if_false]
          constructor
          · intro hh
            simp at hh
          · intro hh
            exact absurd hh (by simpa using hf)
      · intro hf
        unfold gemini_generate_text
        rw [h1]
        have hfb : (pyUpper f1 == "MAX_TOKENS") = false := by
          cases h : pyUpper f1 == "MAX_TOKENS"
          · rfl
          · exact absurd (by simpa using h) hf
        simp [htb, hfb]
      · intro hf t2 f2 h2
        have ht2s := gemini_extract_strip resp2 t2 f2 h2
        have hfb : (pyUpper f1 == "MAX_TOKENS") = true := by simpa using hf
        constructor
        · intro ht2
          have ht2b : (t2 != "") = true := by simpa using ht2
          unfold gemini_generate_text
          rw [h1]
          simp only [htb, Bool.false_eq_true, if_false, hfb, if_true]
          rw [h2]
          simp only [ht2b, if_true]
          rw [pyRStrip_of_strip_fixed t1 ht1s, pyLStrip_of_strip_fixed t2 ht2s]
          rw [pyStrip_append_nl t1 t2 ht1s ht2s ht ht2]
        · intro ht2
          have ht2b : (t2 != "") = false := by simp [ht2]
          unfold gemini_generate_text
          rw [h1]
          simp only [htb, Bool.false_eq_true, if_false, hfb, if_true]
          rw [h2]
          simp [ht2b]



theorem bday_msg_not_priv (rest : String) :
    startsWithS ("birthday: missing/invalid in col=" ++ rest) "private:" = false := by
  unfold startsWithS
  rw [String.data_append]
  rfl

theorem gender_msg1_not_priv (rest : String) :
    startsWithS ("gender: missing select in col=" ++ rest) "private:" = false := by
  unfold startsWithS
  rw [String.data_append]
  rfl

theorem gender_msg2_not_priv (rest : String) :
    startsWithS ("gender: unknown option_id=" ++ rest) "private:" = false := by
  unfold startsWithS
  rw [String.data_append]
  rfl

theorem time_msg1_not_priv (rest : String) :
    startsWithS ("time: missing select in col=" ++ rest) "private:" = false := by
  unfold startsWithS
  rw [String.data_append]
  rfl

theorem time_msg2_not_priv (rest : String) :
    startsWithS ("time: unknown option_id=" ++ rest) "private:" = false := by
  unfold startsWithS
  rw [String.data_append]
  rfl

theorem pyTruthy_iff (o : Option String) : pyTruthy o = true ↔ ∃ s, o = some s ∧ s ≠ "" := by
  cases o with
  | none => simp [pyTruthy]
  | some s => simp [pyTruthy]

/-- C5 (amended): an item that passes the validator hard (non-`private:`)
checks is always accepted by `build_rec_from_item`.  The converse direction of
the original claim is refuted by `validator_extractor_disagree`. -/
theorem validate_ok_implies_build_ok (cfg : Config) (item : Item)
    (h : (validate_item cfg item).1 = true) :
    (build_rec_from_item cfg item).isOk = true := by
  have hfilter : (vNameErrs item ++ vBdayErrs cfg item ++ vGenderErrs cfg item ++
      vTimeErrs cfg item ++ vPrivErrs cfg item ++ vDmErrs cfg item).filter
        (fun e => !(startsWithS e "private:")) = [] := by
    have h2 : ((vNameErrs item ++ vBdayErrs cfg item ++ vGenderErrs cfg item ++
        vTimeErrs cfg item ++ vPrivErrs cfg item ++ vDmErrs cfg item).filter
          (fun e => !(startsWithS e "private:"))).length == 0 := h
    exact List.length_eq_zero.mp (by simpa using h2)
  simp only [List.append_assoc, List.filter_append, List.append_eq_nil] at hfilter
  obtain ⟨-, hb, hg, ht, -, -⟩ := hfilter
  -- birthday
  have hbOk : vBdayOk cfg item = true := by
    by_contra hno
    have hno' : vBdayOk cfg item = false := by
      cases hx : vBdayOk cfg item
      · rfl
      · exact absurd hx hno
    rw [vBdayErrs, hno'] at hb
    simp [bday_msg_not_priv] at hb
  rw [vBdayOk] at hbOk
  simp only [Bool.and_eq_true] at hbOk
  obtain ⟨hbT, _⟩ := hbOk
  obtain ⟨bs, hbs, hbne⟩ := (pyTruthy_iff _).mp hbT
  -- gender
  have hgT : pyTruthy (extract_select_option item cfg.gender_col) = true := by
    by_contra hno
    have hno' : pyTruthy (extract_select_option item cfg.gender_col) = false := by
      cases hx : pyTruthy (extract_select_option item cfg.gender_col)
      · rfl
      · exact absurd hx hno
    rw [vGenderErrs] at hg
    simp only [hno', Bool.not_false, if_true] at hg
    simp [gender_msg1_not_priv] at hg
  obtain ⟨gs, hgs, hgne⟩ := (pyTruthy_iff _).mp hgT
  have hglook : ∃ g, cfg.gender_opt_to_mf.lookup gs = some g ∧ (g == "m" || g == "f") = true := by
    rw [vGenderErrs] at hg
    simp only [hgT, Bool.not_true, if_false] at hg
    rw [hgs] at hg
    simp only [Option.getD_some] at hg
    cases hlk : cfg.gender_opt_to_mf.lookup gs with
    | none => rw [hlk] at hg; simp [gender_msg2_not_priv] at hg
    | some g =>
      rw [hlk] at hg
      by_cases hmf : (g == "m" || g == "f") = true
      · exact ⟨g, rfl, hmf⟩
      · have hmf' : (g == "m" || g == "f") = false := by
          cases hx : (g == "m" || g == "f")
          · rfl
          · exact absurd hx hmf
        simp [hmf', gender_msg2_not_priv] at hg
  obtain ⟨g, hglk, hgmf⟩ := hglook
  -- time
  have htT : pyTruthy (extract_select_option item cfg.time_col) = true := by
    by_contra hno
    have hno' : pyTruthy (extract_select_option item cfg.time_col) = false := by
      cases hx : pyTruthy (extract_select_option item cfg.time_col)
      · rfl
      · exact absurd hx hno
    rw [vTimeErrs] at ht
    simp only [hno', Bool.not_false, if_true] at ht
    simp [time_msg1_not_priv] at ht
  obtain ⟨ts, hts, htne⟩ := (pyTruthy_iff _).mp htT
  have htlook : ∃ tc, cfg.time_opt_to_code.lookup ts = some tc := by
    rw [vTimeErrs] at ht
    simp only [htT, Bool.not_true, if_false] at ht
    rw [hts] at ht
    simp only [Option.getD_some] at ht
    cases hlk : cfg.time_opt_to_code.lookup ts with
    | none => rw [hlk] at ht; simp [time_msg2_not_priv] at ht
    | some tc => exact ⟨tc, rfl⟩
  obtain ⟨tc, htlk⟩ := htlook
  -- build succeeds
  have hbb : (bs == "") = false := by
    cases hx : bs == ""
    · rfl
    · exact absurd (by simpa using hx) hbne
  have hgb : (gs == "") = false := by
    cases hx : gs == ""
    · rfl
    · exact absurd (by simpa using hx) hgne
  have htb : (ts == "") = false := by
    cases hx : ts == ""
    · rfl
    · exact absurd (by simpa using hx) htne
  have hgmf' : (!(g == "m" || g == "f")) = false := by simp [hgmf]
  unfold build_rec_from_item
  rw [hbs]
  simp only [hbb, Bool.false_eq_true, if_false]
  rw [hgs]
  simp only [hgb, Bool.false_eq_true, if_false]
  rw [hglk]
  simp only [hgmf', Bool.false_eq_true, if_false]
  rw [hts]
  simp only [htb, Bool.false_eq_true, if_false]
  rw [htlk]
  rfl



theorem lookup_mem_snd {k v : String} :
    ∀ l : List (String × String), List.lookup k l = some v → v ∈ l.map Prod.snd := by
  intro l
  induction l with
  | nil => intro h; simp [List.lookup] at h
  | cons a t ih =>
    intro h
    rw [List.lookup] at h
    by_cases hk : (k == a.1) = true
    · rw [hk] at h
      simp at h
      simp [h]
    · have hk' : (k == a.1) = false := by
        cases hx : k == a.1
        · rfl
        · exact absurd hx hk
      rw [hk'] at h
      simp only [List.map_cons, List.mem_cons]
      exact Or.inr (ih h)

/-- C6 (amended): every record `build_rec_from_item` returns (under the
configuration time table, which `load_config` always sets to
`DEFAULT_TIME_OPT_TO_CODE`) has gender `m` or `f`, a time code among the 13
codes `"0"`–`"12"`, and a non-empty birthday.  The original claim
`YYYY-MM-DD` format guarantee is refuted by
`build_rec_accepts_non_date_birthday`. -/
theorem build_rec_invariants (cfg : Config) (item : Item) (r : Rec)
    (htime : cfg.time_opt_to_code = DEFAULT_TIME_OPT_TO_CODE)
    (h : build_rec_from_item cfg item = .ok r) :
    (r.gender = "m" ∨ r.gender = "f") ∧
    r.time_code ∈ ["0", "1", "2", "3", "4", "5", "6", "7", "8", "9", "10", "11", "12"] ∧
    r.birthday ≠ "" := by
  unfold build_rec_from_item at h
  split at h
  · exact absurd h (by simp)
  rename_i birthday hb
  split at h
  · exact absurd h (by simp)
  rename_i hbne
  split at h
  · exact absurd h (by simp)
  rename_i gender_opt hgo
  split at h
  · exact absurd h (by simp)
  rename_i hgne
  split at h
  · exact absurd h (by simp)
  rename_i gender hglk
  split at h
  · exact absurd h (by simp)
  rename_i hgmf
  split at h
  · exact absurd h (by simp)
  rename_i time_opt hto
  split at h
  · exact absurd h (by simp)
  rename_i htne
  split at h
  · exact absurd h (by simp)
  rename_i time_code htlk
  simp only [Except.ok.injEq] at h
  subst h
  refine ⟨?_, ?_, ?_⟩
  · have hor : (gender == "m" || gender == "f") = true := by
      cases hx : (gender == "m" || gender == "f")
      · exact absurd (by simp [hx]) hgmf
      · rfl
    simpa using hor
  · have := lookup_mem_snd cfg.time_opt_to_code htlk
    rw [htime] at this
    simpa [DEFAULT_TIME_OPT_TO_CODE] using this
  · intro hx
    have hx' : birthday = "" := hx
    exact hbne (by simp [hx'])



/-- C9: `env` treats an unset, empty, or whitespace-only value exactly like a
missing one — it falls back to the default, and when the variable is required
and no non-blank default exists, it raises the fatal missing-variable error. -/
theorem env_blank_equals_missing (d : Option String) (req : Bool) (ws : String)
    (hws : pyStrip ws = "") :
    env (some ws) d req = env none d req ∧
    env (some "") d req = env none d req ∧
    (req = true → blankOpt d = true →
      env (some ws) d req = .error "Missing required env var") := by
  have hws' : (pyStrip ws == "") = true := by simp [hws]
  refine ⟨?_, ?_, ?_⟩
  · unfold env
    cases d with
    | none => simp [hws']
    | some s =>
      by_cases hs : (pyStrip s == "") = true
      · simp [hws', hs]
      · have hs' : (pyStrip s == "") = false := by
          cases hx : pyStrip s == ""
          · rfl
          · exact absurd hx hs
        simp [hws', hs']
  · have hemp : pyStrip "" = "" := rfl
    unfold env
    cases d with
    | none => simp [hemp]
    | some s =>
      by_cases hs : (pyStrip s == "") = true
      · simp [hemp, hs]
      · have hs' : (pyStrip s == "") = false := by
          cases hx : pyStrip s == ""
          · rfl
          · exact absurd hx hs
        simp [hemp, hs']
  · intro hreq hbl
    unfold env
    cases d with
    | none => simp [hws', hreq]
    | some s =>
      have hs : (pyStrip s == "") = true := by simpa [blankOpt] using hbl
      simp [hws', hs, hreq]

/-- helper C7 -/
theorem slack_api_del_retry (lim : List HttpResp) (okr : HttpResp) (rest : List HttpResp)
    (hlim : ∀ x ∈ lim, isRateLimited x = true) (hok : isRateLimited okr = false) :
    slack_api_del (lim ++ okr :: rest) = some (okr.body, lim.map rateLimitSleep) := by
  induction lim with
  | nil =>
    simp only [List.nil_append]
    unfold slack_api_del
    simp [hok]
  | cons x xs ih =>
    have hx : isRateLimited x = true := hlim x (by simp)
    simp only [List.cons_append]
    unfold slack_api_del
    rw [ih (fun q hq => hlim q (by simp [hq]))]
    simp [hx]

/-- C7 (amended): the deletion utility `slack_api` sleeps `Retry-After + 1`
seconds and retries for every rate-limited response, however many arrive, and
returns the first non-rate-limited body without ever surfacing the rate limit;
the main bot `slack_api`, by contrast, raises on every body whose `ok` is
false — including an in-body `ratelimited` error (see
`main_slack_api_surfaces_ratelimit`). -/
theorem slack_rate_limit_handling :
    (∀ (lim : List HttpResp) (okr : HttpResp) (rest : List HttpResp),
      (∀ x ∈ lim, isRateLimited x = true) → isRateLimited okr = false →
      slack_api_del (lim ++ okr :: rest) = some (okr.body, lim.map rateLimitSleep)) ∧
    (∀ (method : String) (b : SlackBody), b.ok = false →
      slack_api_main method b = .error (method ++ " failed")) := by
  constructor
  · exact slack_api_del_retry
  · intro method b hb
    unfold slack_api_main
    simp [hb]

/-- C7 counterexample: the main bot `slack_api` surfaces an in-body
`ratelimited` signal as an error instead of sleeping and retrying. -/
theorem main_slack_api_surfaces_ratelimit :
    slack_api_main "chat.postMessage" { ok := false, error := some "ratelimited" } =
      .error "chat.postMessage failed" := rfl

/-- C8: `fetch_all_list_items` issues one fetch per page, returns the in-order
concatenation of every page items, and stops exactly at the first response
whose next-cursor is empty (later pages are never fetched). -/
theorem fetch_all_list_items_spec (ps : List Page) (last : Page) (extra : List Page)
    (hps : ∀ p ∈ ps, p.next_cursor ≠ "") (hlast : last.next_cursor = "") :
    fetch_all_list_items (ps ++ last :: extra) =
      some ((ps.map Page.items).flatten ++ last.items, ps.length + 1) := by
  induction ps with
  | nil =>
    simp only [List.nil_append]
    unfold fetch_all_list_items
    simp [hlast]
  | cons p ps ih =>
    have hp : p.next_cursor ≠ "" := hps p (by simp)
    have hp' : (p.next_cursor == "") = false := by
      cases hx : p.next_cursor == ""
      · rfl
      · exact absurd (by simpa using hx) hp
    simp only [List.cons_append]
    unfold fetch_all_list_items
    rw [ih (fun q hq => hps q (by simp [hq]))]
    simp [hp']

/-- C3 (code bug): for a private item with no assignee and no configured
admins, `build_rec_from_item` succeeds with an empty `dm_targets` instead of
failing, while `validate_item` — the code own audit of the same rules —
marks the same item as failing. -/
theorem build_rec_private_without_targets_succeeds :
    (build_rec_from_item cfg0 itemPrivNoTargetsFx).map (fun r => (r.is_private, r.dm_targets)) =
      .ok (true, []) ∧
    (validate_item cfg0 itemPrivNoTargetsFx).1 = false := by
  constructor
  · rfl
  · rfl

/-- C6 counterexample: `build_rec_from_item` accepts a birthday text that does
not match `DATE_RE`, so the returned record birthday violates the claimed
`YYYY-MM-DD` invariant. -/
theorem build_rec_accepts_non_date_birthday :
    (build_rec_from_item cfg0 itemBadBdayFx).map
      (fun r => (r.birthday, DATE_RE_match r.birthday)) = .ok ("hello", false) := rfl

/-- C5 counterexample: an item with an invalid birthday format fails the
validator hard checks yet is accepted by `build_rec_from_item`, refuting the
claimed equivalence. -/
theorem validator_extractor_disagree :
    (validate_item cfg0 itemBadBdayFx).1 = false ∧
    (build_rec_from_item cfg0 itemBadBdayFx).isOk = true := by
  constructor
  · rfl
  · rfl

/-- C4 counterexample: a truncated first response followed by a continuation
response with no candidates makes `gemini_generate_text` raise, instead of
returning the first (truncated) text as-is as the claim states for a
continuation that yields no text. -/
theorem gemini_continuation_without_candidates_raises :
    gemini_generate_text gRespTruncFx gRespNoCandFx =
      (.error "Gemini returned no candidates", 2) ∧
    gemini_extract_text gRespTruncFx = .ok ("첫 부분", "MAX_TOKENS") := by
  constructor
  · rfl
  · rfl




theorem deliverDMs_all_ok (w : World) (text : String) :
    ∀ targets : List String,
      (∀ uid ∈ targets, w.openDm uid = .ok (dmChan w uid) ∧
        w.post (dmChan w uid) text = .ok ()) →
      deliverDMs w text targets = (dmTrace w text targets, .ok ()) := by
  intro targets
  induction targets with
  | nil => intro _; rfl
  | cons uid rest ih =>
    intro h
    obtain ⟨hopen, hpost⟩ := h uid (by simp)
    unfold deliverDMs
    simp only [hopen, hpost, ih (fun u hu => h u (by simp [hu]))]
    simp [dmTrace]

theorem countOpenDm_append (a b : List Event) :
    countOpenDm (a ++ b) = countOpenDm a + countOpenDm b := by
  simp [countOpenDm, List.filter_append]

theorem countPosts_append (ch : String) (a b : List Event) :
    countPosts ch (a ++ b) = countPosts ch a + countPosts ch b := by
  simp [countPosts, List.filter_append]

theorem countGen_append (a b : List Event) :
    countGen (a ++ b) = countGen a + countGen b := by
  simp [countGen, List.filter_append]

theorem dmTrace_cons (w : World) (text uid : String) (rest : List String) :
    dmTrace w text (uid :: rest) =
      [Event.openDm uid, Event.post (dmChan w uid) text] ++ dmTrace w text rest := by
  simp [dmTrace]

theorem countOpenDm_dmTrace (w : World) (text : String) :
    ∀ ts : List String, countOpenDm (dmTrace w text ts) = ts.length := by
  intro ts
  induction ts with
  | nil => rfl
  | cons uid rest ih =>
    rw [dmTrace_cons, countOpenDm_append, ih]
    have h2 : countOpenDm [Event.openDm uid, Event.post (dmChan w uid) text] = 1 := rfl
    rw [h2, List.length_cons]
    omega

theorem countGen_dmTrace (w : World) (text : String) :
    ∀ ts : List String, countGen (dmTrace w text ts) = 0 := by
  intro ts
  induction ts with
  | nil => rfl
  | cons uid rest ih =>
    rw [dmTrace_cons, countGen_append, ih]
    rfl

theorem countPosts_dmTrace (w : World) (text ch : String) :
    ∀ ts : List String, (∀ uid ∈ ts, dmChan w uid ≠ ch) →
      countPosts ch (dmTrace w text ts) = 0 := by
  intro ts
  induction ts with
  | nil => intro _; rfl
  | cons uid rest ih =>
    intro h
    have hne := h uid (by simp)
    have hne' : (dmChan w uid == ch) = false := by
      cases hx : dmChan w uid == ch
      · rfl
      · exact absurd (by simpa using hx) hne
    rw [dmTrace_cons, countPosts_append, ih (fun u hu => h u (by simp [hu]))]
    simp [countPosts, List.filter, hne']

/-- C2: for a successfully extracted record whose generation and deliveries
succeed, the driver posts exactly one message to the configured shared channel
and opens no DM when `is_private` is false; when `is_private` is true it opens
one DM and posts one message per `dm_targets` entry, in list order, and posts
nothing to the shared channel (whose id differs from every DM channel id). -/
theorem driver_delivery_routing (cfg : Config) (w : World) (tk tl : String)
    (sent : List String) (events : List Event) (item : Item) (r : Rec) (text : String)
    (hsig : sent.contains (make_daily_signature (item.id.getD "") tk) = false)
    (hb : build_rec_from_item cfg item = .ok r)
    (hg : w.gen (build_prompt r tl) = .ok text) :
    (r.is_private = false → w.post cfg.channel_id text = .ok () →
      (processItem cfg w tk tl (sent, events) item).2 =
        events ++ [Event.genCall (build_prompt r tl), Event.post cfg.channel_id text] ∧
      countPosts cfg.channel_id [Event.genCall (build_prompt r tl), Event.post cfg.channel_id text] = 1 ∧
      countOpenDm [Event.genCall (build_prompt r tl), Event.post cfg.channel_id text] = 0) ∧
    (r.is_private = true →
      (∀ uid ∈ r.dm_targets, w.openDm uid = .ok (dmChan w uid) ∧
        w.post (dmChan w uid) text = .ok ()) →
      (processItem cfg w tk tl (sent, events) item).2 =
        events ++ [Event.genCall (build_prompt r tl)] ++ dmTrace w text r.dm_targets ∧
      countOpenDm (dmTrace w text r.dm_targets) = r.dm_targets.length ∧
      countGen (dmTrace w text r.dm_targets) = 0 ∧
      ((∀ uid ∈ r.dm_targets, dmChan w uid ≠ cfg.channel_id) →
        countPosts cfg.channel_id (dmTrace w text r.dm_targets) = 0)) := by
  constructor
  · intro hp hpost
    refine ⟨?_, ?_, ?_⟩
    · unfold processItem
      simp only [hsig, Bool.false_eq_true, if_false, hb, hg, hp, hpost]
    · simp [countPosts, List.filter]
    · simp [countOpenDm, List.filter]
  · intro hp hdel
    refine ⟨?_, ?_, ?_, ?_⟩
    · unfold processItem
      simp only [hsig, Bool.false_eq_true, if_false, hb, hg, hp, if_true,
        deliverDMs_all_ok w text r.dm_targets hdel]
    · exact countOpenDm_dmTrace w text r.dm_targets
    · exact countGen_dmTrace w text r.dm_targets
    · exact countPosts_dmTrace w text cfg.channel_id r.dm_targets

/-- C1: within one run, delivery is at most once per `(item id, date)`: an item
whose daily signature is already in the sent set is skipped with no generation
and no delivery calls (state unchanged); the signature is recorded only when
extraction, generation and all deliveries succeed, and an iteration that raises
leaves the sent set unchanged. -/
theorem driver_at_most_once_per_day (cfg : Config) (w : World) (tk tl : String)
    (sent : List String) (events : List Event) (item : Item) :
    (sent.contains (make_daily_signature (item.id.getD "") tk) = true →
      processItem cfg w tk tl (sent, events) item = (sent, events)) ∧
    (itemAttemptOk cfg w tl item = false →
      (processItem cfg w tk tl (sent, events) item).1 = sent) ∧
    (sent.contains (make_daily_signature (item.id.getD "") tk) = false →
      itemAttemptOk cfg w tl item = true →
      (processItem cfg w tk tl (sent, events) item).1 =
        make_daily_signature (item.id.getD "") tk :: sent) := by
  refine ⟨?_, ?_, ?_⟩
  · intro h
    unfold processItem
    simp only [h, eq_self_iff_true, if_true]
  · intro hfail
    by_cases hc : sent.contains (make_daily_signature (item.id.getD "") tk) = true
    · unfold processItem
      simp only [hc, eq_self_iff_true, if_true]
    · have hc' : sent.contains (make_daily_signature (item.id.getD "") tk) = false := by
        cases hx : sent.contains (make_daily_signature (item.id.getD "") tk)
        · rfl
        · exact absurd hx hc
      have hmem : make_daily_signature (item.id.getD "") tk ∉ sent := by simpa using hc'
      unfold itemAttemptOk at hfail
      unfold processItem
      cases hb : build_rec_from_item cfg item with
      | error e => simp [hmem, hb]
      | ok r =>
        simp only [hb] at hfail
        cases hg : w.gen (build_prompt r tl) with
        | error e => simp [hmem, hb, hg]
        | ok text =>
          simp only [hg] at hfail
          cases hp : r.is_private with
          | false =>
            simp only [hp, Bool.false_eq_true, if_false] at hfail
            cases hpost : w.post cfg.channel_id text with
            | ok u => simp [hpost] at hfail
            | error e => simp [hmem, hb, hg, hp, hpost]
          | true =>
            simp only [hp, if_true] at hfail
            cases hdel : deliverDMs w text r.dm_targets with
            | mk evs res =>
              simp only [hdel] at hfail
              cases res with
              | ok u => simp at hfail
              | error e => simp [hmem, hb, hg, hp, hdel]
  · intro hc hok
    have hmem : make_daily_signature (item.id.getD "") tk ∉ sent := by simpa using hc
    unfold itemAttemptOk at hok
    unfold processItem
    cases hb : build_rec_from_item cfg item with
    | error e => simp [hb] at hok
    | ok r =>
      simp only [hb] at hok
      cases hg : w.gen (build_prompt r tl) with
      | error e => simp [hg] at hok
      | ok text =>
        simp only [hg] at hok
        cases hp : r.is_private with
        | false =>
          simp only [hp, Bool.false_eq_true, if_false] at hok
          cases hpost : w.post cfg.channel_id text with
          | ok u => simp [hmem, hb, hg, hp, hpost]
          | error e => simp [hpost] at hok
        | true =>
          simp only [hp, if_true] at hok
          cases hdel : deliverDMs w text r.dm_targets with
          | mk evs res =>
            simp only [hdel] at hok
            cases res with
            | ok u => simp [hmem, hb, hg, hp, hdel]
            | error e => simp at hok



theorem scanReplyPage_cons (ctx : DelCtx) (parentTs : String) (r : DMsg) (rest : List DMsg)
    (st : ScanSt) :
    scanReplyPage ctx parentTs (r :: rest) st =
      (if r.ts == parentTs then scanReplyPage ctx parentTs rest st
       else if !(is_bot_authored r ctx.botUser ctx.botId) then scanReplyPage ctx parentTs rest st
       else if ctx.maxDelete ≤ st.deleted then (st, true)
       else
         let (c, ok) := delete_message ctx.w r.ts ctx.dry
         let st1 : ScanSt :=
           { deleted := if ok then st.deleted + 1 else st.deleted, calls := st.calls ++ c }
         scanReplyPage ctx parentTs rest st1) := rfl

theorem scanReplyPages_cons (ctx : DelCtx) (parentTs : String) (pg : List DMsg)
    (rest : List (List DMsg)) (st : ScanSt) :
    scanReplyPages ctx parentTs (pg :: rest) st =
      (let (st1, stop) := scanReplyPage ctx parentTs pg st
       if stop then (st1, true) else scanReplyPages ctx parentTs rest st1) := rfl

theorem scanReplyPage_dry (ctx : DelCtx) (hdry : ctx.dry = true) (parentTs : String) :
    ∀ (pg : List DMsg) (st : ScanSt), st.deleted ≤ ctx.maxDelete →
      (scanReplyPage ctx parentTs pg st).1.deleted =
        min ctx.maxDelete (st.deleted + qualRepliesPage ctx parentTs pg) ∧
      (scanReplyPage ctx parentTs pg st).1.calls = st.calls ∧
      ((scanReplyPage ctx parentTs pg st).2 = true →
        (scanReplyPage ctx parentTs pg st).1.deleted = ctx.maxDelete) := by
  intro pg
  induction pg with
  | nil =>
    intro st hst
    refine ⟨?_, rfl, ?_⟩
    · simp only [scanReplyPage, qualRepliesPage, List.filter_nil, List.length_nil]
      omega
    · intro h
      simp [scanReplyPage] at h
  | cons r rest ih =>
    intro st hst
    by_cases hts : (r.ts == parentTs) = true
    · have hstep : scanReplyPage ctx parentTs (r :: rest) st = scanReplyPage ctx parentTs rest st := by
        rw [scanReplyPage_cons]
        simp [hts]
      have hq : qualRepliesPage ctx parentTs (r :: rest) = qualRepliesPage ctx parentTs rest := by
        simp [qualRepliesPage, List.filter, bne, hts]
      rw [hstep, hq]
      exact ih st hst
    · have hts' : (r.ts == parentTs) = false := by
        cases hx : r.ts == parentTs
        · rfl
        · exact absurd hx hts
      by_cases hbot : is_bot_authored r ctx.botUser ctx.botId = true
      · have hqcons : qualRepliesPage ctx parentTs (r :: rest) =
            qualRepliesPage ctx parentTs rest + 1 := by
          simp [qualRepliesPage, List.filter, bne, hts', hbot]
        by_cases hcap : ctx.maxDelete ≤ st.deleted
        · have heq : st.deleted = ctx.maxDelete := Nat.le_antisymm hst hcap
          have hstep : scanReplyPage ctx parentTs (r :: rest) st = (st, true) := by
            rw [scanReplyPage_cons]
            simp [hts', hbot, hcap]
          rw [hstep, hqcons]
          refine ⟨?_, rfl, fun _ => heq⟩
          show st.deleted = min ctx.maxDelete (st.deleted + (qualRepliesPage ctx parentTs rest + 1))
          omega
        · have hdm : delete_message ctx.w r.ts ctx.dry = ([], true) := by
            unfold delete_message
            simp [hdry]
          have hstep : scanReplyPage ctx parentTs (r :: rest) st =
              scanReplyPage ctx parentTs rest { deleted := st.deleted + 1, calls := st.calls ++ [] } := by
            rw [scanReplyPage_cons]
            simp [hts', hbot, hcap, hdm]
          have hle : st.deleted + 1 ≤ ctx.maxDelete := by omega
          obtain ⟨h1, h2, h3⟩ := ih { deleted := st.deleted + 1, calls := st.calls ++ [] } hle
          rw [hstep, hqcons]
          refine ⟨?_, ?_, ?_⟩
          · rw [h1]
            simp only []
            omega
          · rw [h2]
            simp
          · intro hstop
            exact h3 hstop
      · have hbot' : is_bot_authored r ctx.botUser ctx.botId = false := by
          cases hx : is_bot_authored r ctx.botUser ctx.botId
          · rfl
          · exact absurd hx hbot
        have hstep : scanReplyPage ctx parentTs (r :: rest) st = scanReplyPage ctx parentTs rest st := by
          rw [scanReplyPage_cons]
          simp [hts', hbot']
        have hq : qualRepliesPage ctx parentTs (r :: rest) = qualRepliesPage ctx parentTs rest := by
          simp [qualRepliesPage, List.filter, bne, hts', hbot']
        rw [hstep, hq]
        exact ih st hst

theorem scanReplyPages_dry (ctx : DelCtx) (hdry : ctx.dry = true) (parentTs : String) :
    ∀ (pgs : List (List DMsg)) (st : ScanSt), st.deleted ≤ ctx.maxDelete →
      (scanReplyPages ctx parentTs pgs st).1.deleted =
        min ctx.maxDelete (st.deleted + (pgs.map (qualRepliesPage ctx parentTs)).sum) ∧
      (scanReplyPages ctx parentTs pgs st).1.calls = st.calls ∧
      ((scanReplyPages ctx parentTs pgs st).2 = true →
        (scanReplyPages ctx parentTs pgs st).1.deleted = ctx.maxDelete) := by
  intro pgs
  induction pgs with
  | nil =>
    intro st hst
    refine ⟨?_, rfl, ?_⟩
    · simp only [scanReplyPages, List.map_nil, List.sum_nil]
      omega
    · intro h
      simp [scanReplyPages] at h
  | cons pg rest ih =>
    intro st hst
    obtain ⟨p1, p2, p3⟩ := scanReplyPage_dry ctx hdry parentTs pg st hst
    cases hres : scanReplyPage ctx parentTs pg st with
    | mk st1 stop =>
      rw [hres] at p1 p2 p3
      simp only [] at p1 p2 p3
      have hst1 : st1.deleted ≤ ctx.maxDelete := by omega
      have hstep : scanReplyPages ctx parentTs (pg :: rest) st =
          if stop then (st1, true) else scanReplyPages ctx parentTs rest st1 := by
        rw [scanReplyPages_cons]
        simp [hres]
      cases stop with
      | true =>
        have hmax : st1.deleted = ctx.maxDelete := p3 rfl
        rw [hstep]
        simp only [if_true]
        refine ⟨?_, p2, fun _ => hmax⟩
        simp only [List.map_cons, List.sum_cons]
        omega
      | false =>
        rw [hstep]
        simp only [Bool.false_eq_true, if_false]
        obtain ⟨q1, q2, q3⟩ := ih st1 hst1
        refine ⟨?_, by rw [q2, p2], q3⟩
        rw [q1]
        simp only [List.map_cons, List.sum_cons]
        omega



theorem scanPageMsgs_cons (ctx : DelCtx) (p : Parent) (rest : List Parent) (st : ScanSt) :
    scanPageMsgs ctx (p :: rest) st =
      (if !(is_bot_authored p.msg ctx.botUser ctx.botId) then scanPageMsgs ctx rest st
       else
         let (st1, stop1) :=
           if 0 < p.msg.reply_count then scanReplyPages ctx p.msg.ts p.replyPages st
           else (st, false)
         if stop1 then (st1, true)
         else if ctx.maxDelete ≤ st1.deleted then (st1, true)
         else
           let (c, ok) := delete_message ctx.w p.msg.ts ctx.dry
           let st2 : ScanSt :=
             { deleted := if ok then st1.deleted + 1 else st1.deleted, calls := st1.calls ++ c }
           scanPageMsgs ctx rest st2) := rfl

theorem scanPages_cons (ctx : DelCtx) (pg : List Parent) (rest : List (List Parent)) (st : ScanSt) :
    scanPages ctx (pg :: rest) st =
      (let (st1, stop) := scanPageMsgs ctx pg st
       if stop then (st1, true) else scanPages ctx rest st1) := rfl

theorem scanPageMsgs_dry (ctx : DelCtx) (hdry : ctx.dry = true) :
    ∀ (ps : List Parent) (st : ScanSt), st.deleted ≤ ctx.maxDelete →
      (scanPageMsgs ctx ps st).1.deleted =
        min ctx.maxDelete (st.deleted + (ps.map (qualParent ctx)).sum) ∧
      (scanPageMsgs ctx ps st).1.calls = st.calls ∧
      ((scanPageMsgs ctx ps st).2 = true →
        (scanPageMsgs ctx ps st).1.deleted = ctx.maxDelete) := by
  intro ps
  induction ps with
  | nil =>
    intro st hst
    refine ⟨?_, rfl, ?_⟩
    · simp only [scanPageMsgs, List.map_nil, List.sum_nil]
      omega
    · intro h
      simp [scanPageMsgs] at h
  | cons p rest ih =>
    intro st hst
    by_cases hbot : is_bot_authored p.msg ctx.botUser ctx.botId = true
    · have hR : ∃ st1 stop1,
          (if 0 < p.msg.reply_count then scanReplyPages ctx p.msg.ts p.replyPages st
           else (st, false)) = (st1, stop1) ∧
          st1.deleted = min ctx.maxDelete (st.deleted +
            (if 0 < p.msg.reply_count then
              (p.replyPages.map (qualRepliesPage ctx p.msg.ts)).sum else 0)) ∧
          st1.calls = st.calls ∧ (stop1 = true → st1.deleted = ctx.maxDelete) := by
        by_cases hrc : 0 < p.msg.reply_count
        · cases hres : scanReplyPages ctx p.msg.ts p.replyPages st with
          | mk st1 stop1 =>
            obtain ⟨r1, r2, r3⟩ := scanReplyPages_dry ctx hdry p.msg.ts p.replyPages st hst
            rw [hres] at r1 r2 r3
            refine ⟨st1, stop1, by simp [hrc, hres], ?_, r2, r3⟩
            simpa [hrc] using r1
        · refine ⟨st, false, by simp [hrc], ?_, rfl, by simp⟩
          simp only [hrc, if_false]
          omega
      obtain ⟨st1, stop1, hres, h1, h2, h3⟩ := hR
      have hq : qualParent ctx p =
          (if 0 < p.msg.reply_count then
            (p.replyPages.map (qualRepliesPage ctx p.msg.ts)).sum else 0) + 1 := by
        simp [qualParent, hbot]
      have hst1 : st1.deleted ≤ ctx.maxDelete := by omega
      cases stop1 with
      | true =>
        have hmax := h3 rfl
        have hstep : scanPageMsgs ctx (p :: rest) st = (st1, true) := by
          rw [scanPageMsgs_cons]
          simp [hbot, hres]
        rw [hstep]
        simp only [List.map_cons, List.sum_cons, hq]
        refine ⟨?_, h2, fun _ => hmax⟩
        show st1.deleted = _
        omega
      | false =>
        by_cases hcap : ctx.maxDelete ≤ st1.deleted
        · have heq : st1.deleted = ctx.maxDelete := Nat.le_antisymm hst1 hcap
          have hstep : scanPageMsgs ctx (p :: rest) st = (st1, true) := by
            rw [scanPageMsgs_cons]
            simp [hbot, hres, hcap]
          rw [hstep]
          simp only [List.map_cons, List.sum_cons, hq]
          refine ⟨?_, h2, fun _ => heq⟩
          show st1.deleted = _
          omega
        · have hdm : delete_message ctx.w p.msg.ts ctx.dry = ([], true) := by
            unfold delete_message
            simp [hdry]
          have hstep : scanPageMsgs ctx (p :: rest) st =
              scanPageMsgs ctx rest { deleted := st1.deleted + 1, calls := st1.calls ++ [] } := by
            rw [scanPageMsgs_cons]
            simp [hbot, hres, hcap, hdm]
          have hst2 : st1.deleted + 1 ≤ ctx.maxDelete := by omega
          obtain ⟨b1, b2, b3⟩ := ih { deleted := st1.deleted + 1, calls := st1.calls ++ [] } hst2
          rw [hstep]
          simp only [List.map_cons, List.sum_cons, hq]
          refine ⟨?_, ?_, b3⟩
          · rw [b1]
            simp only []
            omega
          · rw [b2, h2]
            simp
    · have hbot' : is_bot_authored p.msg ctx.botUser ctx.botId = false := by
        cases hx : is_bot_authored p.msg ctx.botUser ctx.botId
        · rfl
        · exact absurd hx hbot
      have hstep : scanPageMsgs ctx (p :: rest) st = scanPageMsgs ctx rest st := by
        rw [scanPageMsgs_cons]
        simp [hbot']
      have hq : qualParent ctx p = 0 := by
        simp [qualParent, hbot']
      obtain ⟨a1, a2, a3⟩ := ih st hst
      rw [hstep]
      simp only [List.map_cons, List.sum_cons, hq]
      refine ⟨?_, a2, a3⟩
      rw [a1]
      omega

theorem scanPages_dry (ctx : DelCtx) (hdry : ctx.dry = true) :
    ∀ (pages : List (List Parent)) (st : ScanSt), st.deleted ≤ ctx.maxDelete →
      (scanPages ctx pages st).1.deleted =
        min ctx.maxDelete (st.deleted +
          (pages.map (fun pg => (pg.map (qualParent ctx)).sum)).sum) ∧
      (scanPages ctx pages st).1.calls = st.calls ∧
      ((scanPages ctx pages st).2 = true →
        (scanPages ctx pages st).1.deleted = ctx.maxDelete) := by
  intro pages
  induction pages with
  | nil =>
    intro st hst
    refine ⟨?_, rfl, ?_⟩
    · simp only [scanPages, List.map_nil, List.sum_nil]
      omega
    · intro h
      simp [scanPages] at h
  | cons pg rest ih =>
    intro st hst
    obtain ⟨p1, p2, p3⟩ := scanPageMsgs_dry ctx hdry pg st hst
    cases hres : scanPageMsgs ctx pg st with
    | mk st1 stop =>
      rw [hres] at p1 p2 p3
      simp only [] at p1 p2 p3
      have hst1 : st1.deleted ≤ ctx.maxDelete := by omega
      have hstep : scanPages ctx (pg :: rest) st =
          if stop then (st1, true) else scanPages ctx rest st1 := by
        rw [scanPages_cons]
        simp [hres]
      cases stop with
      | true =>
        have hmax : st1.deleted = ctx.maxDelete := p3 rfl
        rw [hstep]
        simp only [if_true]
        refine ⟨?_, p2, fun _ => hmax⟩
        simp only [List.map_cons, List.sum_cons]
        omega
      | false =>
        rw [hstep]
        simp only [Bool.false_eq_true, if_false]
        obtain ⟨q1, q2, q3⟩ := ih st1 hst1
        refine ⟨?_, by rw [q2, p2], q3⟩
        rw [q1]
        simp only [List.map_cons, List.sum_cons]
        omega

/-- C10: with `DRY_RUN` true, `delete_message` makes no `chat.delete` call and
returns `True` unconditionally, and the scan issues zero delete calls while the
`deleted` counter still counts every simulated deletion up to the `MAX_DELETE`
cap: it ends at `min MAX_DELETE (number of qualifying messages)`. -/
theorem delete_dry_run_frame (ctx : DelCtx) (pages : List (List Parent))
    (w' : String → Bool) (ts : String) :
    delete_message w' ts true = ([], true) ∧
    (ctx.dry = true →
      (deleteScan ctx pages).1.calls = [] ∧
      (deleteScan ctx pages).1.deleted = min ctx.maxDelete (qualTotal ctx pages)) := by
  constructor
  · rfl
  · intro hdry
    obtain ⟨h1, h2, _⟩ := scanPages_dry ctx hdry pages { deleted := 0, calls := [] } (Nat.zero_le _)
    constructor
    · exact h2
    · rw [show deleteScan ctx pages = scanPages ctx pages { deleted := 0, calls := [] } from rfl]
      rw [h1]
      simp [qualTotal]


/-! ## Witnesses: concrete instances discharging each hypothesised theorem -/

/-- Witness for C1: a duplicate signature is skipped, and a fresh successful
item is marked sent. -/
theorem driver_at_most_once_per_day_witness :
    processItem cfg0 wOkFx "2026-10-12" "오늘" ([make_daily_signature "Rec1" "2026-10-12"], [])
      itemOkFx = ([make_daily_signature "Rec1" "2026-10-12"], []) ∧
    (processItem cfg0 wOkFx "2026-10-12" "오늘" ([], []) itemOkFx).1 =
      [make_daily_signature "Rec1" "2026-10-12"] := by
  have h := driver_at_most_once_per_day cfg0 wOkFx "2026-10-12" "오늘"
    [make_daily_signature "Rec1" "2026-10-12"] [] itemOkFx
  have h2 := driver_at_most_once_per_day cfg0 wOkFx "2026-10-12" "오늘" [] [] itemOkFx
  exact ⟨h.1 (by decide), h2.2.2 (by decide) (by decide)⟩

/-- Witness for C2: the valid non-private fixture posts exactly one channel
message after its generation call. -/
theorem driver_delivery_routing_witness :
    (processItem cfg0 wOkFx "2026-10-12" "오늘" ([], []) itemOkFx).2 =
      [] ++ [Event.genCall (build_prompt recOkFx "오늘"),
             Event.post cfg0.channel_id "오늘의 운세"] := by
  have h := driver_delivery_routing cfg0 wOkFx "2026-10-12" "오늘" [] [] itemOkFx recOkFx
    "오늘의 운세" rfl rfl rfl
  exact (h.1 rfl rfl).1

/-- Witness for C4: a truncated first response and a non-empty continuation
yield the two texts joined by one line break, in two calls. -/
theorem gemini_generate_text_spec_witness :
    gemini_generate_text gRespTruncFx gRespContFx =
      (.ok ("첫 부분" ++ "\n" ++ "이어지는 부분"), 2) := by
  have h := gemini_generate_text_spec gRespTruncFx gRespContFx
  have h1 : gemini_extract_text gRespTruncFx = .ok ("첫 부분", "MAX_TOKENS") := rfl
  have h2 : gemini_extract_text gRespContFx = .ok ("이어지는 부분", "STOP") := rfl
  exact (((h.2.2 "첫 부분" "MAX_TOKENS" h1).2 (by decide)).2.2 (by decide)
    "이어지는 부분" "STOP" h2).1 (by decide)

/-- Witness for C5: the valid fixture passes the validator and is accepted by
the extractor. -/
theorem validate_ok_implies_build_ok_witness :
    (validate_item cfg0 itemOkFx).1 = true ∧
    (build_rec_from_item cfg0 itemOkFx).isOk = true :=
  ⟨by decide, validate_ok_implies_build_ok cfg0 itemOkFx (by decide)⟩

/-- Witness for C6: the record extracted from the valid fixture satisfies the
(amended) invariant. -/
theorem build_rec_invariants_witness :
    build_rec_from_item cfg0 itemOkFx = .ok recOkFx ∧
    ((recOkFx.gender = "m" ∨ recOkFx.gender = "f") ∧
      recOkFx.time_code ∈
        ["0", "1", "2", "3", "4", "5", "6", "7", "8", "9", "10", "11", "12"] ∧
      recOkFx.birthday ≠ "") :=
  ⟨rfl, build_rec_invariants cfg0 itemOkFx recOkFx rfl rfl⟩

/-- Witness for C7: one 429 response with Retry-After 5 causes one 6-second
sleep, then the next body is returned. -/
theorem slack_rate_limit_handling_witness :
    slack_api_del [rlRespFx, okRespFx] = some (okRespFx.body, [6]) := by
  have h := slack_rate_limit_handling
  exact h.1 [rlRespFx] okRespFx [] (by decide) (by decide)

/-- Witness for C8: two pages, the second with an empty cursor, produce both
item lists in order with two fetches. -/
theorem fetch_all_list_items_spec_witness :
    fetch_all_list_items [pageAFx, pageBFx] =
      some ([itemOkFx, itemPrivNoTargetsFx], 2) := by
  exact fetch_all_list_items_spec [pageAFx] pageBFx [] (by decide) rfl

/-- Witness for C9: a whitespace-only required variable with no default aborts
exactly like an unset one. -/
theorem env_blank_equals_missing_witness :
    env (some "  ") none true = env none none true ∧
    env (some "") none true = env none none true ∧
    (true = true → blankOpt none = true →
      env (some "  ") none true = .error "Missing required env var") :=
  env_blank_equals_missing none true "  " rfl

/-- Witness for C10: the dry-run fixture scan deletes nothing, makes no delete
call, and stops at the cap of 2 despite 3 qualifying messages. -/
theorem delete_dry_run_frame_witness :
    delete_message (fun _ => true) "169.0" true = ([], true) ∧
    (deleteScan delCtxFx delPagesFx).1.calls = [] ∧
    (deleteScan delCtxFx delPagesFx).1.deleted = 2 := by
  have h := delete_dry_run_frame delCtxFx delPagesFx (fun _ => true) "169.0"
  exact ⟨h.1, (h.2 rfl).1, (h.2 rfl).2⟩

end FortuneBot
